import Mathlib

/-!
Verification of the MetroAIScheduler CP-SAT solver driver
(`Sources/MetroAISchedulerApp/Resources/ortools_solver.py`).

The Python program reads a JSON payload (students, shift templates, shift
types, rules, shift instances), resolves the project timezone, imports
OR-Tools, short-circuits on empty inputs and on a missing contiguous
overnight run, builds a boolean CP-SAT model, solves it, and writes the
status together with the emitted assignments.

The embedding below represents:
* absolute instants as integers (seconds since the Unix epoch, UTC);
* the project timezone as a fixed offset in seconds (the weekday and
  conference-window computations of the source are wall-clock arithmetic
  over `astimezone` projections, which this mirrors exactly);
* the Python dictionaries `templates` and `shift_types` (keyed by id,
  built from lists whose ids are unique by input invariant) as
  first-match lookups over the input lists;
* the CP-SAT model as the predicate `ModelSat`: a boolean assignment
  `x : student index -> shift index -> Bool` together with the block
  selector variables `y : student index -> window index -> Bool`
  satisfies `ModelSat` exactly when it satisfies every linear constraint
  the source adds with `model.Add`.  The solver reports OPTIMAL/FEASIBLE
  only with a satisfying assignment in hand, and (being complete) reports
  INFEASIBLE when none exists;
* the pre-solve control flow (import failure, empty inputs, missing
  overnight run, timezone fallback) as the function `runPipeline`.
-/

set_option synthInstance.maxSize 4096

namespace MetroScheduler

structure Student where
  id : String
deriving DecidableEq, Inhabited, Repr

structure ShiftType where
  id : String
  name : String
  minShifts : Option Int
  maxShifts : Option Int
deriving DecidableEq, Inhabited, Repr

structure ShiftTemplate where
  id : String
  shiftTypeId : Option String
deriving DecidableEq, Inhabited, Repr

structure ShiftInstance where
  id : String
  templateId : String
  startDateTime : Int
  endDateTime : Int
deriving DecidableEq, Inhabited, Repr

structure TimeOfDay where
  hour : Int
  minute : Int
deriving DecidableEq, Inhabited, Repr

/-- The `rules` dictionary after parsing, with the source's `.get` defaults
already applied; `timezone` is kept raw (`none` = key absent) because the
fallback behaviour of lines 59-63 is itself under verification. -/
structure Rules where
  numShiftsRequired : Int
  timeOffHours : Int
  noDoubleBooking : Bool
  conferenceDay : Int
  conferenceStartTime : TimeOfDay
  conferenceEndTime : TimeOfDay
  timezone : Option String
  solverTimeLimitSeconds : Int
deriving DecidableEq, Inhabited, Repr

structure SolveInput where
  students : List Student
  shiftTemplates : List ShiftTemplate
  shiftTypes : List ShiftType
  rules : Rules
  shiftInstances : List ShiftInstance
deriving DecidableEq, Inhabited, Repr

def numStudents (input : SolveInput) : Nat := input.students.length

def numShifts (input : SolveInput) : Nat := input.shiftInstances.length

def shiftAt (input : SolveInput) (i : Nat) : ShiftInstance :=
  input.shiftInstances.getD i default

def studentAt (input : SolveInput) (s : Nat) : Student :=
  input.students.getD s default

/-- ASCII lower-casing of one character. -/
def asciiLower (c : Char) : Char :=
  if 'A' ≤ c ∧ c ≤ 'Z' then Char.ofNat (c.toNat + 32) else c

/-- ASCII whitespace, as stripped by Python `str.strip()`. -/
def isSpaceChar (c : Char) : Bool :=
  c == ' ' || c == '\t' || c == '\n' || c == '\r'

/-- Strip leading and trailing whitespace from a character list. -/
def trimChars (l : List Char) : List Char :=
  ((l.dropWhile isSpaceChar).reverse.dropWhile isSpaceChar).reverse

/-- `t.get("name", "").strip().lower()` of the source (the shift-type names
in play are ASCII, so ASCII case folding models `str.lower()` exactly). -/
def normName (s : String) : String :=
  String.mk ((trimChars s.data).map asciiLower)

/-- Line 97: ids of shift types whose normalised name is "overnight". -/
def overnightTypeIds (input : SolveInput) : List String :=
  (input.shiftTypes.filter (fun t => normName t.name == "overnight")).map (fun t => t.id)

/-- Lines 98-102: `max(0, int(t.get("minShifts") or 0))` of the first
overnight-named shift type (0 when there is none). -/
def overnightRequired (input : SolveInput) : Int :=
  match input.shiftTypes.find? (fun t => normName t.name == "overnight") with
  | some t => max 0 (t.minShifts.getD 0)
  | none => 0

/-- The `templates` dictionary (line 56), for inputs with unique template ids. -/
def templateById (input : SolveInput) (tid : String) : Option ShiftTemplate :=
  input.shiftTemplates.find? (fun t => t.id == tid)

/-- The `shift_types` dictionary (line 57), for inputs with unique type ids. -/
def shiftTypeById (input : SolveInput) (tyId : String) : Option ShiftType :=
  input.shiftTypes.find? (fun t => t.id == tyId)

/-- Line 112: `templates.get(sh["templateId"], {}).get("shiftTypeId") in overnight_type_ids`. -/
def isOvernightShift (input : SolveInput) (sh : ShiftInstance) : Bool :=
  match templateById input sh.templateId with
  | none => false
  | some tpl =>
    match tpl.shiftTypeId with
    | none => false
    | some ty => (overnightTypeIds input).contains ty

/-- Local wall-clock date (days since epoch) of an instant under a fixed
timezone offset; `astimezone(local_tz)` followed by `.date()`. -/
def localDay (tzOff : Int) (t : Int) : Int := (t + tzOff).fdiv 86400

/-- Python `date.weekday()`: Monday = 0.  Epoch day 0 (1970-01-01) is a
Thursday, weekday 3. -/
def pyWeekday (day : Int) : Int := (day + 3) % 7

/-- Line 33 / line 116: `((day.weekday() + 1) % 7) + 1`, Sunday = 1. -/
def swiftWeekday (day : Int) : Int := (pyWeekday day + 1) % 7 + 1

/-- Line 107: `7 if conference_day == 1 else conference_day - 1`. -/
def dayBeforeConference (rules : Rules) : Int :=
  if rules.conferenceDay == 1 then 7 else rules.conferenceDay - 1

/-- Line 35: the conference window start on a given local date, as local
wall-clock seconds since epoch. -/
def confWindowStart (rules : Rules) (day : Int) : Int :=
  day * 86400 + rules.conferenceStartTime.hour * 3600 + rules.conferenceStartTime.minute * 60

/-- Lines 36-38: the window end, extended by 24 hours when it is not after
the window start. -/
def confWindowEnd (rules : Rules) (day : Int) : Int :=
  let e := day * 86400 + rules.conferenceEndTime.hour * 3600 + rules.conferenceEndTime.minute * 60
  if e ≤ confWindowStart rules day then e + 86400 else e

/-- Lines 17-43: `conference_overlap`.  The `while day <= end_day` loop is
rendered as a search over the (possibly empty) inclusive day range. -/
def conference_overlap (tzOff : Int) (rules : Rules) (shiftStart shiftEnd : Int) : Bool :=
  let localStart := shiftStart + tzOff
  let localEnd := shiftEnd + tzOff
  let firstDay := localStart.fdiv 86400
  let lastDay := localEnd.fdiv 86400
  (List.range (lastDay + 1 - firstDay).toNat).any (fun k =>
    let day := firstDay + (k : Int)
    swiftWeekday day == rules.conferenceDay &&
      (decide (localStart < confWindowEnd rules day) &&
       decide (confWindowStart rules day < localEnd)))

/-- Lines 121-126: indices of shifts overlapping the conference blackout. -/
def conferenceBlockedIdxs (input : SolveInput) (tzOff : Int) : List Nat :=
  (List.range (numShifts input)).filter (fun i =>
    conference_overlap tzOff input.rules
      (shiftAt input i).startDateTime (shiftAt input i).endDateTime)

/-- Lines 104-114: indices of overnight shifts, in input order. -/
def overnightIdxs (input : SolveInput) : List Nat :=
  (List.range (numShifts input)).filter (fun i => isOvernightShift input (shiftAt input i))

/-- Lines 115-118: overnight shifts whose local start weekday equals the
day before the conference day. -/
def overnightBeforeConfIdxs (input : SolveInput) (tzOff : Int) : List Nat :=
  (overnightIdxs input).filter (fun i =>
    swiftWeekday (localDay tzOff (shiftAt input i).startDateTime) == dayBeforeConference input.rules)

/-- Stable insertion of a shift index into a list sorted by start instant. -/
def orderedInsertIdx (input : SolveInput) (i : Nat) : List Nat → List Nat
  | [] => [i]
  | j :: l =>
    if (shiftAt input i).startDateTime ≤ (shiftAt input j).startDateTime
    then i :: j :: l else j :: orderedInsertIdx input i l

/-- Stable sort by start instant; models the stable `sorted(..., key=start)`
of lines 144-147 (any two stable sorts by the same key agree). -/
def sortByStart (input : SolveInput) : List Nat → List Nat
  | [] => []
  | i :: l => orderedInsertIdx input i (sortByStart input l)

def overnightOrdered (input : SolveInput) : List Nat :=
  sortByStart input (overnightIdxs input)

/-- Line 151: `overnight_ordered[start:start + overnight_required]`. -/
def windowAt (input : SolveInput) (k : Nat) : List Nat :=
  ((overnightOrdered input).drop k).take (overnightRequired input).toNat

/-- Lines 152-157: consecutive starts must be exactly 86,400 seconds apart. -/
def consecutiveStarts (starts : List Int) : Bool :=
  (starts.zip starts.tail).all (fun p => p.2 - p.1 == 86400)

def startsOf (input : SolveInput) (w : List Nat) : List Int :=
  w.map (fun i => (shiftAt input i).startDateTime)

/-- Lines 150-159: window offsets whose member starts are consecutive.
Python `range(0, len - required + 1)` is empty when `len < required`. -/
def candidateWindowIdxs (input : SolveInput) : List Nat :=
  let req := (overnightRequired input).toNat
  let n := (overnightOrdered input).length
  if req ≤ n then
    (List.range (n + 1 - req)).filter
      (fun k => consecutiveStarts (startsOf input (windowAt input k)))
  else []

/-- `valid_windows` of line 159. -/
def validWindows (input : SolveInput) : List (List Nat) :=
  (candidateWindowIdxs input).map (fun k => windowAt input k)

/-- Line 160: `(start of window[0], end of window[-1])`. -/
def windowSpan (input : SolveInput) (w : List Nat) : Int × Int :=
  ((shiftAt input (w.headD 0)).startDateTime, (shiftAt input (w.getLastD 0)).endDateTime)

/-- Line 129-130: the internal per-student quota. -/
def target (input : SolveInput) : Int :=
  max 0 (input.rules.numShiftsRequired - max 0 (overnightRequired input - 1))

/-- Line 219: `int(rules.get("timeOffHours", 0)) * 3600`. -/
def minRestSeconds (input : SolveInput) : Int := input.rules.timeOffHours * 3600

/-- A linear sum of boolean variables over a list of indices. -/
def boolSum (b : Nat → Bool) (l : List Nat) : Int :=
  (l.map (fun i => ((b i).toNat : Int))).sum

/-- Line 229: `start_i < end_j and start_j < end_i`. -/
def shiftsOverlapB (a b : ShiftInstance) : Bool :=
  decide (a.startDateTime < b.endDateTime) && decide (b.startDateTime < a.endDateTime)

/-- Lines 233-236: the rest check between two disjoint shifts. -/
def restOkB (minRest : Int) (a b : ShiftInstance) : Bool :=
  if a.endDateTime ≤ b.startDateTime then
    decide (minRest ≤ b.startDateTime - a.endDateTime)
  else
    decide (minRest ≤ a.startDateTime - b.endDateTime)

/-- Lines 229-238: the condition under which the source forbids assigning
both shifts of a pair to one student. -/
def pairConflict (minRest : Int) (a b : ShiftInstance) : Bool :=
  shiftsOverlapB a b || !restOkB minRest a b

/-- Mirrors `shift_type_id` resolution for the per-type bounds of lines
241-253; Python skips falsy (absent or empty) type ids. -/
def effTypeId (input : SolveInput) (i : Nat) : Option String :=
  match templateById input (shiftAt input i).templateId with
  | none => none
  | some tpl =>
    match tpl.shiftTypeId with
    | none => none
    | some ty => if ty = "" then none else some ty

/-- The shift indices grouped under a given type id (`shifts_by_type`). -/
def typeIdxs (input : SolveInput) (tyId : String) : List Nat :=
  (List.range (numShifts input)).filter (fun i => effTypeId input i == some tyId)

/-- A boolean assignment (`x` on student/shift pairs, `y` on student/window
pairs) satisfies every constraint the source adds with `model.Add`
(lines 129-266).  The solver reports OPTIMAL or FEASIBLE only with an
assignment satisfying this predicate in hand. -/
structure ModelSat (input : SolveInput) (tzOff : Int)
    (x : Nat → Nat → Bool) (y : Nat → Nat → Bool) : Prop where
  /-- Lines 131-135: each student's total equals the internal target. -/
  studentTotal : ∀ s < numStudents input,
    boolSum (x s) (List.range (numShifts input)) = target input
  /-- Lines 138-140: exact overnight count when an overnight quota exists. -/
  overnightTotal : overnightRequired input > 0 → ∀ s < numStudents input,
    boolSum (x s) (overnightIdxs input) = overnightRequired input
  /-- Line 182: exactly one candidate block is chosen per student. -/
  blockChosen : overnightRequired input > 1 → ∀ s < numStudents input,
    boolSum (y s) (List.range (validWindows input).length) = 1
  /-- Lines 184-189: overnight selection is driven by the covering blocks
  (`x == sum(covers)`, and `x == 0` when no window covers the shift). -/
  blockDrives : overnightRequired input > 1 → ∀ s < numStudents input,
    ∀ i ∈ overnightOrdered input,
      ((x s i).toNat : Int) =
        boolSum (y s) ((List.range (validWindows input).length).filter
          (fun w => ((validWindows input).getD w []).contains i))
  /-- Lines 191-201: a chosen block excludes overlapping non-member shifts. -/
  blockSpanFree : overnightRequired input > 1 → ∀ s < numStudents input,
    ∀ w < (validWindows input).length, ∀ j < numShifts input,
      ((validWindows input).getD w []).contains j = false →
      (shiftAt input j).startDateTime < (windowSpan input ((validWindows input).getD w [])).2 →
      (windowSpan input ((validWindows input).getD w [])).1 < (shiftAt input j).endDateTime →
      ((x s j).toNat : Int) + ((y s w).toNat : Int) ≤ 1
  /-- Lines 203-206: at most one student per shift instance. -/
  noDoubleBook : input.rules.noDoubleBooking = true → ∀ i < numShifts input,
    boolSum (fun s => x s i) (List.range (numStudents input)) ≤ 1
  /-- Lines 208-211: conference-blocked shifts are forced unassigned. -/
  confBlocked : ∀ i ∈ conferenceBlockedIdxs input tzOff, ∀ s < numStudents input,
    x s i = false
  /-- Lines 213-216: overnight shifts starting the day before the
  conference are forced unassigned. -/
  preConfBan : ∀ i ∈ overnightBeforeConfIdxs input tzOff, ∀ s < numStudents input,
    x s i = false
  /-- Lines 224-238: pairwise overlap/rest constraints (over pairs i < j). -/
  restPairs : ∀ s < numStudents input, ∀ j < numShifts input, ∀ i < j,
    pairConflict (minRestSeconds input) (shiftAt input i) (shiftAt input j) = true →
    ((x s i).toNat : Int) + ((x s j).toNat : Int) ≤ 1
  /-- Lines 255-264: per-type minimum, for types that own at least one shift. -/
  typeMinOk : ∀ st ∈ input.shiftTypes, shiftTypeById input st.id = some st →
    typeIdxs input st.id ≠ [] → ∀ s < numStudents input, ∀ m ∈ st.minShifts,
    m ≤ boolSum (x s) (typeIdxs input st.id)
  /-- Lines 255-266: per-type maximum, for types that own at least one shift. -/
  typeMaxOk : ∀ st ∈ input.shiftTypes, shiftTypeById input st.id = some st →
    typeIdxs input st.id ≠ [] → ∀ s < numStudents input, ∀ m ∈ st.maxShifts,
    boolSum (x s) (typeIdxs input st.id) ≤ m

/-- The CP-SAT model built by the source has a satisfying assignment. -/
def satisfiable (input : SolveInput) (tzOff : Int) : Prop :=
  ∃ x y, ModelSat input tzOff x y

/-- Lines 274-282: the assignment list emitted on OPTIMAL/FEASIBLE, as
`(studentId, shiftInstanceId)` pairs in (student, shift) input order. -/
def emittedAssignments (input : SolveInput) (x : Nat → Nat → Bool) :
    List (String × String) :=
  ((List.range (numStudents input)).map (fun s =>
    ((List.range (numShifts input)).filter (fun i => x s i)).map
      (fun i => ((studentAt input s).id, (shiftAt input i).id)))).flatten

/-- Lines 59-63: `ZoneInfo(rules.get("timezone", "UTC"))` with a fallback
to UTC when loading raises.  `db` models the IANA database as a partial
map from zone names to fixed offsets (UTC is offset 0). -/
def resolveTz (db : String → Option Int) (tzName : Option String) : Int :=
  (db (tzName.getD "UTC")).getD 0

/-- One of the early outputs written by the source before any solve. -/
structure EarlyExit where
  status : String
  assignments : List (String × String)
  message : String
  details : List String
  exitCode : Int
deriving DecidableEq, Repr

/-- Lines 68-77. -/
def importFailDiag (e : String) : EarlyExit :=
  { status := "ERROR", assignments := [],
    message := "OR-Tools import failed.",
    details := [e, "Install with: pip install ortools"],
    exitCode := 0 }

/-- Lines 80-89. -/
def missingDiag : EarlyExit :=
  { status := "INFEASIBLE", assignments := [],
    message := "Missing students or shifts.",
    details := ["Need at least one student and one generated shift."],
    exitCode := 0 }

/-- Lines 162-175. -/
def noBlockDiag (input : SolveInput) : EarlyExit :=
  { status := "INFEASIBLE", assignments := [],
    message := "No feasible overnight block exists in the current window.",
    details := ["Required overnight shifts/student: " ++ toString (overnightRequired input),
                "No contiguous overnight run is available from shift offerings and dates."],
    exitCode := 0 }

/-- Either the program wrote an early output and returned 0, or it reached
the solve stage with the resolved timezone offset. -/
inductive PipeResult
  | earlyExit (out : EarlyExit)
  | solve (tzOff : Int)
deriving DecidableEq, Repr

/-- Lines 59-175: the pre-solve control flow, in source order: timezone
resolution, OR-Tools import (`importError = some e` models a failing import
that raised `e`), the empty-input check, then the contiguous-overnight
check.  Steps that build the abandoned model have no observable effect. -/
def runPipeline (db : String → Option Int) (importError : Option String)
    (input : SolveInput) : PipeResult :=
  let tzOff := resolveTz db input.rules.timezone
  match importError with
  | some e => .earlyExit (importFailDiag e)
  | none =>
    if input.students.isEmpty || input.shiftInstances.isEmpty then
      .earlyExit missingDiag
    else if overnightRequired input > 1 ∧ validWindows input = [] then
      .earlyExit (noBlockDiag input)
    else
      .solve tzOff

/-- `maxTighter tight orig`: the tightened bound is at most the original
(and a bound may be introduced where none existed). -/
def maxTighter (tight orig : Option Int) : Bool :=
  match orig with
  | none => true
  | some m =>
    match tight with
    | none => false
    | some mt => decide (mt ≤ m)

/-- A shift type tightened only in its `maxShifts` bound. -/
def typeTighter (tight orig : ShiftType) : Prop :=
  tight.id = orig.id ∧ tight.name = orig.name ∧
    tight.minShifts = orig.minShifts ∧ maxTighter tight.maxShifts orig.maxShifts = true

/-- The input with its shift-type list and rest-hour rule replaced. -/
def tightenInput (A : SolveInput) (types : List ShiftType) (hours : Int) : SolveInput :=
  { A with shiftTypes := types, rules := { A.rules with timeOffHours := hours } }

/-- Rules shared by the concrete test inputs: conference on Wednesday
(day 4) 08:00-12:00, no rest requirement, UTC. -/
def baseRules : Rules :=
  { numShiftsRequired := 1, timeOffHours := 0, noDoubleBooking := true,
    conferenceDay := 4, conferenceStartTime := ⟨8, 0⟩, conferenceEndTime := ⟨12, 0⟩,
    timezone := none, solverTimeLimitSeconds := 20 }

/-- One student, one untyped one-hour shift on Thursday 1970-01-01. -/
def sampleBasic : SolveInput :=
  { students := [⟨"s1"⟩],
    shiftTemplates := [⟨"tp1", none⟩],
    shiftTypes := [],
    rules := baseRules,
    shiftInstances := [⟨"sh1", "tp1", 0, 3600⟩] }

/-- An all-ones decision matrix. -/
def allOn : Nat → Nat → Bool := fun _ _ => true

/-- An all-zeros decision matrix. -/
def allOff : Nat → Nat → Bool := fun _ _ => false

/-- One student, one overnight shift, overnight quota 1, but a user-facing
shift requirement of 0: the internal target is 0 while the overnight
equality demands one assignment. -/
def exA : SolveInput :=
  { students := [⟨"s1"⟩],
    shiftTemplates := [⟨"tpo", some "ot"⟩],
    shiftTypes := [⟨"ot", "Overnight", some 1, none⟩],
    rules := { baseRules with numShiftsRequired := 0 },
    shiftInstances := [⟨"o1", "tpo", 0, 3600⟩] }

/-- `exA` with `numShiftsRequired` increased from 0 to 1. -/
def exA' : SolveInput :=
  { exA with rules := { exA.rules with numShiftsRequired := 1 } }

/-- One student; two consecutive overnight shifts and four one-hour shifts
of a type capped at 2 per student; five shifts required.  With an
overnight quota of 1 the non-overnight load (4) exceeds the cap. -/
def exB : SolveInput :=
  { students := [⟨"s1"⟩],
    shiftTemplates := [⟨"tpo", some "ot"⟩, ⟨"tpt", some "tt"⟩],
    shiftTypes := [⟨"ot", "Overnight", some 1, none⟩, ⟨"tt", "T", none, some 2⟩],
    rules := { baseRules with numShiftsRequired := 5 },
    shiftInstances :=
      [⟨"o1", "tpo", 0, 36000⟩, ⟨"o2", "tpo", 86400, 122400⟩,
       ⟨"t1", "tpt", 201600, 205200⟩, ⟨"t2", "tpt", 288000, 291600⟩,
       ⟨"t3", "tpt", 374400, 378000⟩, ⟨"t4", "tpt", 460800, 464400⟩] }

/-- `exB` with the overnight type's `minShifts` increased from 1 to 2. -/
def exB' : SolveInput :=
  { exB with shiftTypes := [⟨"ot", "Overnight", some 2, none⟩, ⟨"tt", "T", none, some 2⟩] }

/-- A satisfying matrix for `exB'`: both overnights plus two capped shifts. -/
def xB : Nat → Nat → Bool := fun _ i => decide (i < 4)

/-- Overnight quota 2 but the two overnight shifts are two days apart, so
no contiguous 24-hour run exists. -/
def sampleGap : SolveInput :=
  { students := [⟨"s1"⟩],
    shiftTemplates := [⟨"tpo", some "ot"⟩],
    shiftTypes := [⟨"ot", "Overnight", some 2, none⟩],
    rules := { baseRules with numShiftsRequired := 2 },
    shiftInstances := [⟨"o1", "tpo", 0, 3600⟩, ⟨"o2", "tpo", 172800, 176400⟩] }

/-- Overnight quota 2; the two overnight shifts start 24 hours apart but
each lasts 30 hours, so the only candidate block overlaps internally. -/
def sampleLong : SolveInput :=
  { students := [⟨"s1"⟩],
    shiftTemplates := [⟨"tpo", some "ot"⟩],
    shiftTypes := [⟨"ot", "Overnight", some 2, none⟩],
    rules := { baseRules with numShiftsRequired := 2 },
    shiftInstances := [⟨"o1", "tpo", 0, 108000⟩, ⟨"o2", "tpo", 86400, 194400⟩] }

/-- One student, two disjoint untyped shifts a day apart, both required. -/
def sampleRest : SolveInput :=
  { students := [⟨"s1"⟩],
    shiftTemplates := [⟨"tpA", none⟩],
    shiftTypes := [],
    rules := { baseRules with numShiftsRequired := 2 },
    shiftInstances := [⟨"a1", "tpA", 0, 3600⟩, ⟨"a2", "tpA", 86400, 90000⟩] }

/-- A roster-less input with one shift. -/
def sampleNoStudents : SolveInput :=
  { students := [],
    shiftTemplates := [⟨"tp1", none⟩],
    shiftTypes := [],
    rules := baseRules,
    shiftInstances := [⟨"sh1", "tp1", 0, 3600⟩] }

/-- A timezone database that only knows UTC. -/
def utcOnlyDb : String → Option Int := fun s => if s == "UTC" then some 0 else none

theorem boolSum_nil (b : Nat → Bool) : boolSum b [] = 0 := rfl

theorem boolSum_cons (b : Nat → Bool) (i : Nat) (l : List Nat) :
    boolSum b (i :: l) = ((b i).toNat : Int) + boolSum b l := by
  simp [boolSum]

theorem boolSum_nonneg (b : Nat → Bool) (l : List Nat) : 0 ≤ boolSum b l := by
  induction l with
  | nil => simp [boolSum]
  | cons i l ih =>
    rw [boolSum_cons]
    have : (0 : Int) ≤ ((b i).toNat : Int) := Int.natCast_nonneg _
    omega

theorem boolSum_pos_of_mem (b : Nat → Bool) {l : List Nat} {i : Nat}
    (hi : i ∈ l) (hb : b i = true) : 1 ≤ boolSum b l := by
  induction l with
  | nil => cases hi
  | cons j l ih =>
    rw [boolSum_cons]
    have hnn : (0 : Int) ≤ ((b j).toNat : Int) := Int.natCast_nonneg _
    rcases List.mem_cons.mp hi with h | h
    · subst h
      rw [hb]
      simp only [Bool.toNat_true, Int.natCast_one]
      have := boolSum_nonneg b l
      omega
    · have := ih h
      omega

theorem exists_true_of_boolSum_pos (b : Nat → Bool) {l : List Nat}
    (h : 0 < boolSum b l) : ∃ i ∈ l, b i = true := by
  induction l with
  | nil => simp [boolSum] at h
  | cons i l ih =>
    rw [boolSum_cons] at h
    cases hb : b i with
    | true => exact ⟨i, List.mem_cons_self i l, hb⟩
    | false =>
      rw [hb] at h
      simp only [Bool.toNat_false, Int.natCast_zero, zero_add] at h
      obtain ⟨j, hj, hbj⟩ := ih h
      exact ⟨j, List.mem_cons_of_mem _ hj, hbj⟩

theorem mem_orderedInsertIdx (input : SolveInput) (i j : Nat) (l : List Nat) :
    j ∈ orderedInsertIdx input i l ↔ j = i ∨ j ∈ l := by
  induction l with
  | nil => simp [orderedInsertIdx]
  | cons k l ih =>
    simp only [orderedInsertIdx]
    split
    · simp
    · simp only [List.mem_cons, ih]
      tauto

theorem mem_sortByStart (input : SolveInput) (j : Nat) (l : List Nat) :
    j ∈ sortByStart input l ↔ j ∈ l := by
  induction l with
  | nil => simp [sortByStart]
  | cons i l ih =>
    simp only [sortByStart, mem_orderedInsertIdx, ih, List.mem_cons]

theorem mem_overnightOrdered (input : SolveInput) (j : Nat) :
    j ∈ overnightOrdered input ↔ j ∈ overnightIdxs input :=
  mem_sortByStart input j (overnightIdxs input)

theorem lt_numShifts_of_mem_overnightIdxs (input : SolveInput) {j : Nat}
    (h : j ∈ overnightIdxs input) : j < numShifts input := by
  simp only [overnightIdxs, List.mem_filter, List.mem_range] at h
  exact h.1

theorem mem_overnightOrdered_of_mem_validWindow (input : SolveInput)
    {w : List Nat} (hw : w ∈ validWindows input) {j : Nat} (hj : j ∈ w) :
    j ∈ overnightOrdered input := by
  simp only [validWindows, List.mem_map] at hw
  obtain ⟨k, _, rfl⟩ := hw
  unfold windowAt at hj
  exact (List.drop_subset _ _) ((List.take_subset _ _) hj)

theorem lt_numShifts_of_mem_validWindow (input : SolveInput)
    {w : List Nat} (hw : w ∈ validWindows input) {j : Nat} (hj : j ∈ w) :
    j < numShifts input :=
  lt_numShifts_of_mem_overnightIdxs input
    ((mem_overnightOrdered input j).mp
      (mem_overnightOrdered_of_mem_validWindow input hw hj))

theorem getD_inj_of_nodup_map {α β : Type} [Inhabited α] (f : α → β) (l : List α)
    (h : (l.map f).Nodup) {i j : Nat} (hi : i < l.length) (hj : j < l.length)
    (hf : f (l.getD i default) = f (l.getD j default)) : i = j := by
  have hinj := List.nodup_iff_injective_get.mp h
  have hi' : i < (l.map f).length := by simpa using hi
  have hj' : j < (l.map f).length := by simpa using hj
  have hgi : (l.map f).get ⟨i, hi'⟩ = f (l.getD i default) := by
    simp [List.get_eq_getElem, List.getElem_map, List.getD_eq_getElem l default hi,
      List.getElem?_eq_getElem hi]
  have hgj : (l.map f).get ⟨j, hj'⟩ = f (l.getD j default) := by
    simp [List.get_eq_getElem, List.getElem_map, List.getD_eq_getElem l default hj,
      List.getElem?_eq_getElem hj]
  have : (⟨i, hi'⟩ : Fin (l.map f).length) = ⟨j, hj'⟩ := by
    apply hinj
    rw [hgi, hgj, hf]
  exact congrArg Fin.val this

theorem sum_map_range_single (f : Nat → Nat) (n s : Nat) (hs : s < n)
    (h0 : ∀ t < n, t ≠ s → f t = 0) :
    ((List.range n).map f).sum = f s := by
  induction n with
  | zero => omega
  | succ n ih =>
    rw [List.range_succ, List.map_append, List.sum_append]
    simp only [List.map_cons, List.map_nil, List.sum_cons, List.sum_nil]
    rcases Nat.lt_or_ge s n with h | h
    · rw [ih h (fun t ht hne => h0 t (Nat.lt_succ_of_lt ht) hne),
        h0 n (Nat.lt_succ_self n) (by omega)]
      omega
    · have hsn : s = n := by omega
      subst hsn
      have hz : ((List.range s).map f).sum = 0 := by
        apply List.sum_eq_zero
        intro a ha
        simp only [List.mem_map, List.mem_range] at ha
        obtain ⟨t, ht, rfl⟩ := ha
        exact h0 t (Nat.lt_succ_of_lt ht) (by omega)
      omega

theorem mem_emitted (input : SolveInput) (x : Nat → Nat → Bool) (p : String × String) :
    p ∈ emittedAssignments input x ↔
      ∃ s < numStudents input, ∃ i < numShifts input,
        x s i = true ∧ p = ((studentAt input s).id, (shiftAt input i).id) := by
  unfold emittedAssignments
  simp only [List.mem_flatten, List.mem_map, List.mem_filter, List.mem_range]
  constructor
  · rintro ⟨entry, ⟨s, hs, rfl⟩, hp⟩
    simp only [List.mem_map, List.mem_filter, List.mem_range] at hp
    obtain ⟨i, ⟨hi, hxi⟩, rfl⟩ := hp
    exact ⟨s, hs, i, hi, hxi, rfl⟩
  · rintro ⟨s, hs, i, hi, hxi, rfl⟩
    refine ⟨_, ⟨s, hs, rfl⟩, ?_⟩
    simp only [List.mem_map, List.mem_filter, List.mem_range]
    exact ⟨i, ⟨hi, hxi⟩, rfl⟩

theorem countP_emitted (input : SolveInput) (x : Nat → Nat → Bool)
    (hnd : (input.students.map Student.id).Nodup) {s : Nat} (hs : s < numStudents input) :
    (emittedAssignments input x).countP (fun p => p.1 == (studentAt input s).id)
      = ((List.range (numShifts input)).filter (fun i => x s i)).length := by
  unfold emittedAssignments
  rw [List.countP_flatten, List.map_map]
  have hrw : ∀ t < numStudents input,
      (List.countP (fun p => p.1 == (studentAt input s).id) ∘ fun t =>
        ((List.range (numShifts input)).filter (fun i => x t i)).map
          (fun i => ((studentAt input t).id, (shiftAt input i).id))) t
      = if (studentAt input t).id = (studentAt input s).id
        then ((List.range (numShifts input)).filter (fun i => x t i)).length else 0 := by
    intro t _
    simp only [Function.comp_apply]
    rw [List.countP_map]
    by_cases hid : (studentAt input t).id = (studentAt input s).id
    · simp only [hid, if_true]
      apply List.countP_eq_length.mpr
      intro a _
      simp [hid]
    · simp only [hid, if_false]
      apply List.countP_eq_zero.mpr
      intro a _
      simp [hid]
  calc ((List.range (numStudents input)).map _).sum
      = ((List.range (numStudents input)).map (fun t =>
          if (studentAt input t).id = (studentAt input s).id
          then ((List.range (numShifts input)).filter (fun i => x t i)).length else 0)).sum := by
        apply congrArg
        apply List.map_congr_left
        intro t ht
        exact hrw t (List.mem_range.mp ht)
    _ = _ := by
        rw [sum_map_range_single _ _ s hs]
        · simp
        · intro t ht hne
          have : (studentAt input t).id ≠ (studentAt input s).id := by
            intro he
            exact hne (getD_inj_of_nodup_map Student.id input.students hnd ht hs he)
          simp [this]

/-- Claim C6: with zero students or zero shift instances the program
short-circuits before creating any decision variables and writes an
INFEASIBLE output with an empty assignment list and a diagnostic that
mentions missing students or shifts, returning exit code 0. -/
theorem empty_input_early_infeasible (db : String → Option Int) (input : SolveInput)
    (h : input.students = [] ∨ input.shiftInstances = []) :
    runPipeline db none input = .earlyExit
      { status := "INFEASIBLE", assignments := [],
        message := "Missing students or shifts.",
        details := ["Need at least one student and one generated shift."],
        exitCode := 0 } := by
  unfold runPipeline
  have he : (input.students.isEmpty || input.shiftInstances.isEmpty) = true := by
    rcases h with h | h <;> simp [h]
  simp [he, missingDiag]

theorem empty_input_early_infeasible_witness :
    runPipeline utcOnlyDb none sampleNoStudents = .earlyExit
      { status := "INFEASIBLE", assignments := [],
        message := "Missing students or shifts.",
        details := ["Need at least one student and one generated shift."],
        exitCode := 0 } :=
  empty_input_early_infeasible utcOnlyDb sampleNoStudents (Or.inl rfl)

/-- Claim C9: the OR-Tools import is attempted before the empty-input
check, so a failing import yields an ERROR output with an empty assignment
list and a remediation detail, with exit code 0, for every input - in
particular for inputs with zero students or zero shifts, where the status
is ERROR rather than INFEASIBLE. -/
theorem import_failure_error_first (db : String → Option Int) (e : String)
    (input : SolveInput) :
    runPipeline db (some e) input = .earlyExit
      { status := "ERROR", assignments := [],
        message := "OR-Tools import failed.",
        details := [e, "Install with: pip install ortools"],
        exitCode := 0 } := rfl

/-- Claim C3: when the overnight quota exceeds 1 and no contiguous window
of exactly that many overnight shifts has consecutive starts 86,400
seconds apart, the program skips the solve and writes an INFEASIBLE output
with no assignments and a diagnostic naming the missing contiguous
overnight run, returning exit code 0. -/
theorem no_overnight_run_early_infeasible (db : String → Option Int) (input : SolveInput)
    (h1 : input.students ≠ []) (h2 : input.shiftInstances ≠ [])
    (h3 : overnightRequired input > 1) (h4 : validWindows input = []) :
    runPipeline db none input = .earlyExit
      { status := "INFEASIBLE", assignments := [],
        message := "No feasible overnight block exists in the current window.",
        details := ["Required overnight shifts/student: " ++ toString (overnightRequired input),
                    "No contiguous overnight run is available from shift offerings and dates."],
        exitCode := 0 } := by
  unfold runPipeline
  have he : (input.students.isEmpty || input.shiftInstances.isEmpty) = false := by
    simp [List.isEmpty_iff, h1, h2]
  simp [he, h3, h4, noBlockDiag]

theorem no_overnight_run_early_infeasible_witness :
    runPipeline utcOnlyDb none sampleGap = .earlyExit
      { status := "INFEASIBLE", assignments := [],
        message := "No feasible overnight block exists in the current window.",
        details := ["Required overnight shifts/student: " ++ toString (overnightRequired sampleGap),
                    "No contiguous overnight run is available from shift offerings and dates."],
        exitCode := 0 } :=
  no_overnight_run_early_infeasible utcOnlyDb sampleGap
    (by decide) (by decide) (by decide) (by decide)

theorem runPipeline_none_eq (db : String → Option Int) (input : SolveInput) :
    runPipeline db none input =
      (if input.students.isEmpty || input.shiftInstances.isEmpty then
        .earlyExit missingDiag
      else if overnightRequired input > 1 ∧ validWindows input = [] then
        .earlyExit (noBlockDiag input)
      else
        .solve (resolveTz db input.rules.timezone)) := rfl

/-- Claim C10: an absent `rules.timezone` or one whose name the timezone
database cannot load silently resolves to UTC (offset 0), the solve stage
then runs all conference-blackout and weekday computations at offset 0,
and an unrecognised timezone name never yields an ERROR outcome. -/
theorem timezone_fallback_utc (db : String → Option Int) (name : String)
    (imp : Option String) (input : SolveInput)
    (hname : db name = none) (hutc : db "UTC" = some 0) :
    resolveTz db (some name) = 0 ∧
    resolveTz db none = 0 ∧
    (∀ tz, runPipeline db imp
        { input with rules := { input.rules with timezone := some name } } = .solve tz →
      tz = 0) ∧
    (∀ out, runPipeline db none
        { input with rules := { input.rules with timezone := some name } } = .earlyExit out →
      out.status ≠ "ERROR") := by
  refine ⟨by simp [resolveTz, hname], by simp [resolveTz, hutc], ?_, ?_⟩
  · intro tz h
    cases imp with
    | some e =>
      rw [show runPipeline db (some e)
          { input with rules := { input.rules with timezone := some name } }
          = .earlyExit (importFailDiag e) from rfl] at h
      exact PipeResult.noConfusion h
    | none =>
      rw [runPipeline_none_eq] at h
      by_cases hc1 : ({ input with rules := { input.rules with timezone := some name } }
          : SolveInput).students.isEmpty
          || ({ input with rules := { input.rules with timezone := some name } }
          : SolveInput).shiftInstances.isEmpty
      · rw [if_pos hc1] at h
        exact PipeResult.noConfusion h
      · rw [if_neg hc1] at h
        by_cases hc2 : overnightRequired
            { input with rules := { input.rules with timezone := some name } } > 1 ∧
            validWindows { input with rules := { input.rules with timezone := some name } } = []
        · rw [if_pos hc2] at h
          exact PipeResult.noConfusion h
        · rw [if_neg hc2] at h
          injection h with h'
          rw [← h']
          simp [resolveTz, hname]
  · intro out h
    rw [runPipeline_none_eq] at h
    by_cases hc1 : ({ input with rules := { input.rules with timezone := some name } }
        : SolveInput).students.isEmpty
        || ({ input with rules := { input.rules with timezone := some name } }
        : SolveInput).shiftInstances.isEmpty
    · rw [if_pos hc1] at h
      injection h with h'
      rw [← h']
      simp [missingDiag]
    · rw [if_neg hc1] at h
      by_cases hc2 : overnightRequired
          { input with rules := { input.rules with timezone := some name } } > 1 ∧
          validWindows { input with rules := { input.rules with timezone := some name } } = []
      · rw [if_pos hc2] at h
        injection h with h'
        rw [← h']
        simp [noBlockDiag]
      · rw [if_neg hc2] at h
        exact PipeResult.noConfusion h

theorem boolSum_eq_filter_length (b : Nat → Bool) (l : List Nat) :
    boolSum b l = ((l.filter b).length : Int) := by
  induction l with
  | nil => rfl
  | cons i l ih =>
    rw [boolSum_cons, ih]
    cases hb : b i <;> simp [List.filter_cons, hb]
    omega

/-- A satisfying assignment for the one-student one-shift instance. -/
theorem sampleBasic_modelSat : ModelSat sampleBasic 0 allOn allOff :=
  ⟨by decide, by decide, by decide, by decide, by decide, by decide,
   by decide, by decide, by decide, by decide, by decide⟩

/-- Claim C1: the internal quota equals
`max(0, numShiftsRequired - max(0, overnightRequired - 1))` with
`overnightRequired` derived from the overnight shift-type, the model makes
each student's selected-shift total equal that quota, and therefore on any
OPTIMAL or FEASIBLE solve the number of emitted assignments per student
equals the quota. -/
theorem target_count_spec (input : SolveInput) (tzOff : Int)
    (x y : Nat → Nat → Bool)
    (hstu : input.students ≠ []) (hsh : input.shiftInstances ≠ [])
    (hids : (input.students.map Student.id).Nodup)
    (h : ModelSat input tzOff x y) :
    target input
      = max 0 (input.rules.numShiftsRequired - max 0 (overnightRequired input - 1)) ∧
    ∀ s < numStudents input,
      ((emittedAssignments input x).countP (fun p => p.1 == (studentAt input s).id) : Int)
        = target input := by
  refine ⟨rfl, ?_⟩
  intro s hs
  rw [countP_emitted input x hids hs, ← boolSum_eq_filter_length]
  exact h.studentTotal s hs

theorem target_count_spec_witness :
    target sampleBasic
      = max 0 (sampleBasic.rules.numShiftsRequired - max 0 (overnightRequired sampleBasic - 1)) ∧
    ∀ s < numStudents sampleBasic,
      ((emittedAssignments sampleBasic allOn).countP
          (fun p => p.1 == (studentAt sampleBasic s).id) : Int)
        = target sampleBasic :=
  target_count_spec sampleBasic 0 allOn allOff (by decide) (by decide) (by decide)
    sampleBasic_modelSat

/-- Claim C2: a shift is classified conference-blocked iff some local date
in its inclusive local day range has weekday `conferenceDay` and the
conference window on that date (extended by 24 hours when its end is not
after its start) overlaps the shift in local time; every blocked shift is
forced unassigned for every student and appears in no emitted assignment. -/
theorem conference_blackout_spec (input : SolveInput) (tzOff : Int)
    (x y : Nat → Nat → Bool)
    (hids : (input.shiftInstances.map ShiftInstance.id).Nodup)
    (h : ModelSat input tzOff x y) :
    (∀ shiftStart shiftEnd : Int,
      conference_overlap tzOff input.rules shiftStart shiftEnd = true ↔
        ∃ d : Int, (shiftStart + tzOff).fdiv 86400 ≤ d ∧
          d ≤ (shiftEnd + tzOff).fdiv 86400 ∧
          swiftWeekday d = input.rules.conferenceDay ∧
          shiftStart + tzOff < confWindowEnd input.rules d ∧
          confWindowStart input.rules d < shiftEnd + tzOff) ∧
    (∀ i < numShifts input,
      conference_overlap tzOff input.rules (shiftAt input i).startDateTime
        (shiftAt input i).endDateTime = true →
      (∀ s < numStudents input, x s i = false) ∧
      ∀ p ∈ emittedAssignments input x, p.2 ≠ (shiftAt input i).id) := by
  constructor
  · intro shiftStart shiftEnd
    simp only [conference_overlap, List.any_eq_true, List.mem_range, Bool.and_eq_true,
      beq_iff_eq, decide_eq_true_eq]
    constructor
    · rintro ⟨k, hk, hw, h1, h2⟩
      exact ⟨(shiftStart + tzOff).fdiv 86400 + (k : Int), by omega, by omega, hw, h1, h2⟩
    · rintro ⟨d, hd1, hd2, hw, h1, h2⟩
      refine ⟨(d - (shiftStart + tzOff).fdiv 86400).toNat, by omega, ?_⟩
      have hEq : (shiftStart + tzOff).fdiv 86400
          + ((d - (shiftStart + tzOff).fdiv 86400).toNat : Int) = d := by omega
      rw [hEq]
      exact ⟨hw, h1, h2⟩
  · intro i hi hconf
    have hib : i ∈ conferenceBlockedIdxs input tzOff := by
      simp only [conferenceBlockedIdxs, List.mem_filter, List.mem_range]
      exact ⟨hi, hconf⟩
    have hx : ∀ s < numStudents input, x s i = false := h.confBlocked i hib
    refine ⟨hx, ?_⟩
    intro p hp heq
    rw [mem_emitted] at hp
    obtain ⟨s, hs, i', hi', hxi', rfl⟩ := hp
    have hii : i' = i :=
      getD_inj_of_nodup_map ShiftInstance.id input.shiftInstances hids hi' hi heq
    subst hii
    rw [hx s hs] at hxi'
    cases hxi'

theorem conference_blackout_spec_witness :
    (∀ shiftStart shiftEnd : Int,
      conference_overlap 0 sampleBasic.rules shiftStart shiftEnd = true ↔
        ∃ d : Int, (shiftStart + 0).fdiv 86400 ≤ d ∧
          d ≤ (shiftEnd + 0).fdiv 86400 ∧
          swiftWeekday d = sampleBasic.rules.conferenceDay ∧
          shiftStart + 0 < confWindowEnd sampleBasic.rules d ∧
          confWindowStart sampleBasic.rules d < shiftEnd + 0) ∧
    (∀ i < numShifts sampleBasic,
      conference_overlap 0 sampleBasic.rules (shiftAt sampleBasic i).startDateTime
        (shiftAt sampleBasic i).endDateTime = true →
      (∀ s < numStudents sampleBasic, allOn s i = false) ∧
      ∀ p ∈ emittedAssignments sampleBasic allOn, p.2 ≠ (shiftAt sampleBasic i).id) :=
  conference_blackout_spec sampleBasic 0 allOn allOff (by decide) sampleBasic_modelSat

/-- Claim C5: every overnight shift (its template's type is named
"overnight" after trimming and lower-casing) whose local start weekday is
`dayBeforeConference` (7 when `conferenceDay` is 1, else
`conferenceDay - 1`) is forced unassigned for every student and appears in
no emitted assignment. -/
theorem pre_conference_overnight_ban_spec (input : SolveInput) (tzOff : Int)
    (x y : Nat → Nat → Bool)
    (hids : (input.shiftInstances.map ShiftInstance.id).Nodup)
    (h : ModelSat input tzOff x y) :
    dayBeforeConference input.rules
      = (if input.rules.conferenceDay == 1 then 7 else input.rules.conferenceDay - 1) ∧
    ∀ i < numShifts input,
      isOvernightShift input (shiftAt input i) = true →
      swiftWeekday (localDay tzOff (shiftAt input i).startDateTime)
        = dayBeforeConference input.rules →
      (∀ s < numStudents input, x s i = false) ∧
      ∀ p ∈ emittedAssignments input x, p.2 ≠ (shiftAt input i).id := by
  refine ⟨rfl, ?_⟩
  intro i hi hov hwd
  have hib : i ∈ overnightBeforeConfIdxs input tzOff := by
    simp only [overnightBeforeConfIdxs, overnightIdxs, List.mem_filter, List.mem_range,
      beq_iff_eq]
    exact ⟨⟨hi, hov⟩, hwd⟩
  have hx : ∀ s < numStudents input, x s i = false := h.preConfBan i hib
  refine ⟨hx, ?_⟩
  intro p hp heq
  rw [mem_emitted] at hp
  obtain ⟨s, hs, i', hi', hxi', rfl⟩ := hp
  have hii : i' = i :=
    getD_inj_of_nodup_map ShiftInstance.id input.shiftInstances hids hi' hi heq
  subst hii
  rw [hx s hs] at hxi'
  cases hxi'

theorem pre_conference_overnight_ban_spec_witness :
    dayBeforeConference sampleBasic.rules
      = (if sampleBasic.rules.conferenceDay == 1 then 7
         else sampleBasic.rules.conferenceDay - 1) ∧
    ∀ i < numShifts sampleBasic,
      isOvernightShift sampleBasic (shiftAt sampleBasic i) = true →
      swiftWeekday (localDay 0 (shiftAt sampleBasic i).startDateTime)
        = dayBeforeConference sampleBasic.rules →
      (∀ s < numStudents sampleBasic, allOn s i = false) ∧
      ∀ p ∈ emittedAssignments sampleBasic allOn, p.2 ≠ (shiftAt sampleBasic i).id :=
  pre_conference_overnight_ban_spec sampleBasic 0 allOn allOff (by decide)
    sampleBasic_modelSat

theorem gap_of_pairConflict_false (minRest : Int) (a b : ShiftInstance)
    (ha : a.startDateTime < a.endDateTime) (hb : b.startDateTime < b.endDateTime)
    (h : pairConflict minRest a b = false) :
    ¬(a.startDateTime < b.endDateTime ∧ b.startDateTime < a.endDateTime) ∧
    minRest ≤ max a.startDateTime b.startDateTime - min a.endDateTime b.endDateTime := by
  simp only [pairConflict, shiftsOverlapB, restOkB, Bool.or_eq_false_iff,
    Bool.and_eq_false_iff, Bool.not_eq_false', decide_eq_false_iff_not,
    decide_eq_true_eq, not_lt] at h
  obtain ⟨hov, hrest⟩ := h
  by_cases hc : a.endDateTime ≤ b.startDateTime
  · rw [if_pos hc, decide_eq_true_eq] at hrest
    constructor
    · rintro ⟨h1, h2⟩
      omega
    · omega
  · rw [if_neg hc, decide_eq_true_eq] at hrest
    constructor
    · rintro ⟨h1, h2⟩
      rcases hov with h3 | h3 <;> omega
    · rcases hov with h3 | h3 <;> omega

/-- A satisfying assignment for the two-disjoint-shifts instance. -/
theorem sampleRest_modelSat : ModelSat sampleRest 0 allOn allOff :=
  ⟨by decide, by decide, by decide, by decide, by decide, by decide,
   by decide, by decide, by decide, by decide, by decide⟩

/-- Claim C4: on any OPTIMAL or FEASIBLE solve, two distinct shifts
assigned to one student never overlap in absolute time, and the gap
between the later start and the earlier end of such a pair is at least
`timeOffHours * 3600` seconds. -/
theorem rest_and_overlap_spec (input : SolveInput) (tzOff : Int)
    (x y : Nat → Nat → Bool)
    (hwf : ∀ k < numShifts input,
      (shiftAt input k).startDateTime < (shiftAt input k).endDateTime)
    (h : ModelSat input tzOff x y) :
    ∀ s < numStudents input, ∀ i < numShifts input, ∀ j < numShifts input, i ≠ j →
      x s i = true → x s j = true →
      ¬((shiftAt input i).startDateTime < (shiftAt input j).endDateTime ∧
        (shiftAt input j).startDateTime < (shiftAt input i).endDateTime) ∧
      minRestSeconds input ≤
        max (shiftAt input i).startDateTime (shiftAt input j).startDateTime -
          min (shiftAt input i).endDateTime (shiftAt input j).endDateTime := by
  intro s hs i hi j hj hne hxi hxj
  rcases Nat.lt_or_ge i j with hlt | hge
  · cases hcf : pairConflict (minRestSeconds input) (shiftAt input i) (shiftAt input j) with
    | true =>
      exfalso
      have hcon := h.restPairs s hs j hj i hlt hcf
      rw [hxi, hxj] at hcon
      norm_num at hcon
    | false =>
      exact gap_of_pairConflict_false _ _ _ (hwf i hi) (hwf j hj) hcf
  · have hlt : j < i := by omega
    cases hcf : pairConflict (minRestSeconds input) (shiftAt input j) (shiftAt input i) with
    | true =>
      exfalso
      have hcon := h.restPairs s hs i hi j hlt hcf
      rw [hxi, hxj] at hcon
      norm_num at hcon
    | false =>
      have hg := gap_of_pairConflict_false _ _ _ (hwf j hj) (hwf i hi) hcf
      constructor
      · rintro ⟨h1, h2⟩
        exact hg.1 ⟨h2, h1⟩
      · have := hg.2
        omega

theorem rest_and_overlap_spec_witness :
    ¬((shiftAt sampleRest 0).startDateTime < (shiftAt sampleRest 1).endDateTime ∧
      (shiftAt sampleRest 1).startDateTime < (shiftAt sampleRest 0).endDateTime) ∧
    minRestSeconds sampleRest ≤
      max (shiftAt sampleRest 0).startDateTime (shiftAt sampleRest 1).startDateTime -
        min (shiftAt sampleRest 0).endDateTime (shiftAt sampleRest 1).endDateTime :=
  rest_and_overlap_spec sampleRest 0 allOn allOff (by decide) sampleRest_modelSat
    0 (by decide) 0 (by decide) 1 (by decide) (by decide) (by decide) (by decide)

/-- Claim C8: the pairwise rest/overlap constraints also bind pairs of
overnight shifts inside one candidate block, so when the overnight quota
exceeds 1 and every candidate block contains an internally conflicting
pair (overlapping, or with a gap under the rest requirement), no
assignment satisfies the model - the solver can never report OPTIMAL or
FEASIBLE. -/
theorem block_internal_conflict_infeasible (input : SolveInput)
    (hne : input.students ≠ [])
    (hreq : overnightRequired input > 1)
    (hbad : ∀ w ∈ validWindows input, ∃ i ∈ w, ∃ j ∈ w, i < j ∧
      pairConflict (minRestSeconds input) (shiftAt input i) (shiftAt input j) = true) :
    ∀ tzOff : Int, ¬ satisfiable input tzOff := by
  intro tzOff hsat
  obtain ⟨x, y, h⟩ := hsat
  have hs0 : 0 < numStudents input := List.length_pos.mpr hne
  have h1 := h.blockChosen hreq 0 hs0
  obtain ⟨w, hwmem, hyw⟩ := exists_true_of_boolSum_pos (y 0) (by rw [h1]; omega)
  rw [List.mem_range] at hwmem
  have hwin : (validWindows input).getD w [] ∈ validWindows input := by
    rw [List.getD_eq_getElem _ _ hwmem]
    exact List.getElem_mem hwmem
  obtain ⟨i, hiw, j, hjw, hij, hconf⟩ := hbad _ hwin
  have hmemx : ∀ k, k ∈ (validWindows input).getD w [] → x 0 k = true := by
    intro k hkw
    have hd := h.blockDrives hreq 0 hs0 k
      (mem_overnightOrdered_of_mem_validWindow input hwin hkw)
    have hws : 1 ≤ boolSum (y 0) ((List.range (validWindows input).length).filter
        (fun v => ((validWindows input).getD v []).contains k)) := by
      apply boolSum_pos_of_mem (y 0) _ hyw
      refine List.mem_filter.mpr ⟨List.mem_range.mpr hwmem, ?_⟩
      simpa using hkw
    cases hx : x 0 k with
    | false =>
      rw [hx] at hd
      simp only [Bool.toNat_false, Int.natCast_zero] at hd
      omega
    | true => rfl
  have hxi := hmemx i hiw
  have hxj := hmemx j hjw
  have hcon := h.restPairs 0 hs0 j (lt_numShifts_of_mem_validWindow input hwin hjw)
    i hij hconf
  rw [hxi, hxj] at hcon
  norm_num at hcon

theorem block_internal_conflict_infeasible_witness :
    ¬ satisfiable sampleLong 0 :=
  block_internal_conflict_infeasible sampleLong (by decide) (by decide) (by decide) 0

theorem timezone_fallback_utc_witness :
    resolveTz utcOnlyDb (some "Mars/Olympus") = 0 ∧
    resolveTz utcOnlyDb none = 0 ∧
    (∀ tz, runPipeline utcOnlyDb none
        { sampleBasic with rules := { sampleBasic.rules with timezone := some "Mars/Olympus" } }
        = .solve tz →
      tz = 0) ∧
    (∀ out, runPipeline utcOnlyDb none
        { sampleBasic with rules := { sampleBasic.rules with timezone := some "Mars/Olympus" } }
        = .earlyExit out →
      out.status ≠ "ERROR") :=
  timezone_fallback_utc utcOnlyDb "Mars/Olympus" none sampleBasic (by decide) (by decide)

/-- With a user quota of 0 but an overnight quota of 1, the per-student
total forces zero assignments while the overnight equality forces one. -/
theorem exA_unsat : ¬ satisfiable exA 0 := by
  rintro ⟨x, y, h⟩
  have h1 := h.studentTotal 0 (by decide)
  have h2 := h.overnightTotal (by decide) 0 (by decide)
  rw [show List.range (numShifts exA) = [0] from rfl] at h1
  rw [show overnightIdxs exA = [0] from by decide] at h2
  rw [boolSum_cons, boolSum_nil] at h1 h2
  rw [show target exA = 0 from by decide] at h1
  rw [show overnightRequired exA = 1 from by decide] at h2
  omega

theorem exA'_sat : satisfiable exA' 0 :=
  ⟨allOn, allOff,
   by decide, by decide, by decide, by decide, by decide, by decide,
   by decide, by decide, by decide, by decide, by decide⟩

/-- With an overnight quota of 1 and a total of 5, four capped-type shifts
are forced against a per-type maximum of 2. -/
theorem exB_unsat : ¬ satisfiable exB 0 := by
  rintro ⟨x, y, h⟩
  have h1 := h.studentTotal 0 (by decide)
  have h2 := h.overnightTotal (by decide) 0 (by decide)
  have h3 := h.typeMaxOk ⟨"tt", "T", none, some 2⟩ (by decide) (by decide) (by decide)
    0 (by decide) 2 rfl
  have h3' : boolSum (x 0) (typeIdxs exB "tt") ≤ 2 := h3
  rw [show List.range (numShifts exB) = [0, 1, 2, 3, 4, 5] from rfl] at h1
  rw [show overnightIdxs exB = [0, 1] from by decide] at h2
  rw [show typeIdxs exB "tt" = [2, 3, 4, 5] from by decide] at h3'
  simp only [boolSum_cons, boolSum_nil] at h1 h2 h3'
  rw [show target exB = 5 from by decide] at h1
  rw [show overnightRequired exB = 1 from by decide] at h2
  omega

theorem exB'_sat : satisfiable exB' 0 :=
  ⟨xB, allOn,
   by decide, by decide, by decide, by decide, by decide, by decide,
   by decide, by decide, by decide, by decide, by decide⟩

/-- Claim C7 counterexample: tightening a quota can turn INFEASIBLE into
FEASIBLE.  Increasing `numShiftsRequired` from 0 to 1 (`exA` to `exA'`)
and increasing the overnight type's `minShifts` from 1 to 2 (`exB` to
`exB'`) each flip an unsatisfiable model to a satisfiable one, with every
other input field identical and both runs reaching the solve stage. -/
theorem quota_tightening_not_monotone :
    (¬ satisfiable exA 0) ∧ satisfiable exA' 0 ∧
    exA' = { exA with rules :=
      { exA.rules with numShiftsRequired := exA.rules.numShiftsRequired + 1 } } ∧
    runPipeline utcOnlyDb none exA = .solve 0 ∧
    runPipeline utcOnlyDb none exA' = .solve 0 ∧
    (¬ satisfiable exB 0) ∧ satisfiable exB' 0 ∧
    exB'.students = exB.students ∧ exB'.shiftTemplates = exB.shiftTemplates ∧
    exB'.rules = exB.rules ∧ exB'.shiftInstances = exB.shiftInstances ∧
    List.Forall₂ (fun tTight tOrig => tTight.id = tOrig.id ∧ tTight.name = tOrig.name ∧
        tTight.maxShifts = tOrig.maxShifts ∧
        tOrig.minShifts.getD 0 ≤ tTight.minShifts.getD 0)
      exB'.shiftTypes exB.shiftTypes ∧
    runPipeline utcOnlyDb none exB = .solve 0 ∧
    runPipeline utcOnlyDb none exB' = .solve 0 :=
  ⟨exA_unsat, exA'_sat, by decide, by decide, by decide,
   exB_unsat, exB'_sat, rfl, rfl, rfl, rfl,
   .cons ⟨rfl, rfl, rfl, by decide⟩ (.cons ⟨rfl, rfl, rfl, by decide⟩ .nil),
   by decide, by decide⟩

theorem tightenInput_students (A : SolveInput) (t : List ShiftType) (h : Int) :
    (tightenInput A t h).students = A.students := rfl

theorem tightenInput_shiftInstances (A : SolveInput) (t : List ShiftType) (h : Int) :
    (tightenInput A t h).shiftInstances = A.shiftInstances := rfl

theorem tightenInput_shiftTypes (A : SolveInput) (t : List ShiftType) (h : Int) :
    (tightenInput A t h).shiftTypes = t := rfl

theorem tightenInput_timeOffHours (A : SolveInput) (t : List ShiftType) (h : Int) :
    (tightenInput A t h).rules.timeOffHours = h := rfl

theorem tightenInput_numShiftsRequired (A : SolveInput) (t : List ShiftType) (h : Int) :
    (tightenInput A t h).rules.numShiftsRequired = A.rules.numShiftsRequired := rfl

theorem tightenInput_timezone (A : SolveInput) (t : List ShiftType) (h : Int) :
    (tightenInput A t h).rules.timezone = A.rules.timezone := rfl

theorem tightenInput_dayBeforeConference (A : SolveInput) (t : List ShiftType) (h : Int) :
    dayBeforeConference (tightenInput A t h).rules = dayBeforeConference A.rules := rfl

theorem tightenInput_noDoubleBooking (A : SolveInput) (t : List ShiftType) (h : Int) :
    (tightenInput A t h).rules.noDoubleBooking = A.rules.noDoubleBooking := rfl

theorem shiftAt_tighten (A : SolveInput) (t : List ShiftType) (h : Int) (i : Nat) :
    shiftAt (tightenInput A t h) i = shiftAt A i := rfl

theorem numShifts_tighten (A : SolveInput) (t : List ShiftType) (h : Int) :
    numShifts (tightenInput A t h) = numShifts A := rfl

theorem numStudents_tighten (A : SolveInput) (t : List ShiftType) (h : Int) :
    numStudents (tightenInput A t h) = numStudents A := rfl

theorem templateById_tighten (A : SolveInput) (t : List ShiftType) (h : Int) (tid : String) :
    templateById (tightenInput A t h) tid = templateById A tid := rfl

theorem typeIdxs_tighten (A : SolveInput) (t : List ShiftType) (h : Int) (tyId : String) :
    typeIdxs (tightenInput A t h) tyId = typeIdxs A tyId := rfl

theorem startsOf_tighten (A : SolveInput) (t : List ShiftType) (h : Int) (w : List Nat) :
    startsOf (tightenInput A t h) w = startsOf A w := rfl

theorem windowSpan_tighten (A : SolveInput) (t : List ShiftType) (h : Int) (w : List Nat) :
    windowSpan (tightenInput A t h) w = windowSpan A w := rfl

theorem conferenceBlockedIdxs_tighten (A : SolveInput) (t : List ShiftType) (h : Int)
    (tzOff : Int) :
    conferenceBlockedIdxs (tightenInput A t h) tzOff = conferenceBlockedIdxs A tzOff := rfl

/-- The overnight quota only reads shift-type names and `minShifts`, which
`typeTighter` preserves. -/
theorem find?_overnight_minShifts_eq {l l' : List ShiftType}
    (h : List.Forall₂ typeTighter l l') :
    (match l.find? (fun t => normName t.name == "overnight") with
     | some t => max 0 (t.minShifts.getD 0)
     | none => 0)
    = (match l'.find? (fun t => normName t.name == "overnight") with
       | some t => max 0 (t.minShifts.getD 0)
       | none => 0) := by
  induction h with
  | nil => rfl
  | @cons a b l₁ l₂ hR htail ih =>
    obtain ⟨hid, hname, hmin, hmax⟩ := hR
    have hpa : (normName a.name == "overnight") = (normName b.name == "overnight") := by
      rw [hname]
    cases hp : (normName b.name == "overnight") with
    | true => simp only [List.find?, hpa, hp, hmin]
    | false =>
      simp only [List.find?, hpa, hp]
      exact ih

theorem overnightRequired_tighten (A : SolveInput) (t : List ShiftType) (h : Int)
    (hty : List.Forall₂ typeTighter t A.shiftTypes) :
    overnightRequired (tightenInput A t h) = overnightRequired A := by
  unfold overnightRequired
  rw [tightenInput_shiftTypes]
  exact find?_overnight_minShifts_eq hty

theorem overnightTypeIds_eq_of_forall₂ {l l' : List ShiftType}
    (h : List.Forall₂ typeTighter l l') :
    (l.filter (fun t => normName t.name == "overnight")).map (fun t => t.id)
    = (l'.filter (fun t => normName t.name == "overnight")).map (fun t => t.id) := by
  induction h with
  | nil => rfl
  | @cons a b l₁ l₂ hR htail ih =>
    obtain ⟨hid, hname, hmin, hmax⟩ := hR
    have hpa : (normName a.name == "overnight") = (normName b.name == "overnight") := by
      rw [hname]
    cases hp : (normName b.name == "overnight") with
    | true =>
      simp only [List.filter_cons, hpa, hp, if_true, List.map_cons, hid, ih]
    | false =>
      simp only [List.filter_cons, hpa, hp, Bool.false_eq_true, if_false]
      exact ih

theorem overnightTypeIds_tighten (A : SolveInput) (t : List ShiftType) (h : Int)
    (hty : List.Forall₂ typeTighter t A.shiftTypes) :
    overnightTypeIds (tightenInput A t h) = overnightTypeIds A := by
  unfold overnightTypeIds
  rw [tightenInput_shiftTypes]
  exact overnightTypeIds_eq_of_forall₂ hty

theorem isOvernightShift_tighten (A : SolveInput) (t : List ShiftType) (h : Int)
    (hty : List.Forall₂ typeTighter t A.shiftTypes) (sh : ShiftInstance) :
    isOvernightShift (tightenInput A t h) sh = isOvernightShift A sh := by
  unfold isOvernightShift
  rw [templateById_tighten]
  simp only [overnightTypeIds_tighten A t h hty]

theorem overnightIdxs_tighten (A : SolveInput) (t : List ShiftType) (h : Int)
    (hty : List.Forall₂ typeTighter t A.shiftTypes) :
    overnightIdxs (tightenInput A t h) = overnightIdxs A := by
  unfold overnightIdxs
  rw [numShifts_tighten]
  apply List.filter_congr
  intro i _
  rw [shiftAt_tighten]
  exact isOvernightShift_tighten A t h hty (shiftAt A i)

theorem orderedInsertIdx_tighten (A : SolveInput) (t : List ShiftType) (h : Int)
    (i : Nat) (l : List Nat) :
    orderedInsertIdx (tightenInput A t h) i l = orderedInsertIdx A i l := by
  induction l with
  | nil => rfl
  | cons j l ih => simp only [orderedInsertIdx, shiftAt_tighten, ih]

theorem sortByStart_tighten (A : SolveInput) (t : List ShiftType) (h : Int)
    (l : List Nat) :
    sortByStart (tightenInput A t h) l = sortByStart A l := by
  induction l with
  | nil => rfl
  | cons i l ih => simp only [sortByStart, ih, orderedInsertIdx_tighten]

theorem overnightOrdered_tighten (A : SolveInput) (t : List ShiftType) (h : Int)
    (hty : List.Forall₂ typeTighter t A.shiftTypes) :
    overnightOrdered (tightenInput A t h) = overnightOrdered A := by
  unfold overnightOrdered
  rw [sortByStart_tighten, overnightIdxs_tighten A t h hty]

theorem windowAt_tighten (A : SolveInput) (t : List ShiftType) (h : Int)
    (hty : List.Forall₂ typeTighter t A.shiftTypes) (k : Nat) :
    windowAt (tightenInput A t h) k = windowAt A k := by
  unfold windowAt
  rw [overnightOrdered_tighten A t h hty, overnightRequired_tighten A t h hty]

theorem candidateWindowIdxs_tighten (A : SolveInput) (t : List ShiftType) (h : Int)
    (hty : List.Forall₂ typeTighter t A.shiftTypes) :
    candidateWindowIdxs (tightenInput A t h) = candidateWindowIdxs A := by
  unfold candidateWindowIdxs
  simp only [overnightOrdered_tighten A t h hty, overnightRequired_tighten A t h hty,
    windowAt_tighten A t h hty, startsOf_tighten]

theorem validWindows_tighten (A : SolveInput) (t : List ShiftType) (h : Int)
    (hty : List.Forall₂ typeTighter t A.shiftTypes) :
    validWindows (tightenInput A t h) = validWindows A := by
  unfold validWindows
  simp only [candidateWindowIdxs_tighten A t h hty, windowAt_tighten A t h hty]

theorem target_tighten (A : SolveInput) (t : List ShiftType) (h : Int)
    (hty : List.Forall₂ typeTighter t A.shiftTypes) :
    target (tightenInput A t h) = target A := by
  unfold target
  rw [overnightRequired_tighten A t h hty, tightenInput_numShiftsRequired]

theorem overnightBeforeConfIdxs_tighten (A : SolveInput) (t : List ShiftType) (h : Int)
    (hty : List.Forall₂ typeTighter t A.shiftTypes) (tzOff : Int) :
    overnightBeforeConfIdxs (tightenInput A t h) tzOff = overnightBeforeConfIdxs A tzOff := by
  unfold overnightBeforeConfIdxs
  rw [overnightIdxs_tighten A t h hty]
  simp only [shiftAt_tighten, tightenInput_dayBeforeConference]

theorem find?_typeTighter_rel {l l' : List ShiftType}
    (h : List.Forall₂ typeTighter l l') (tyId : String) {tA : ShiftType}
    (hfind : l'.find? (fun u => u.id == tyId) = some tA) :
    ∃ tB, l.find? (fun u => u.id == tyId) = some tB ∧ typeTighter tB tA := by
  induction h with
  | nil => cases hfind
  | @cons a b l₁ l₂ hR htail ih =>
    have hpa : (a.id == tyId) = (b.id == tyId) := by rw [hR.1]
    cases hp : (b.id == tyId) with
    | true =>
      simp only [List.find?, hp] at hfind
      injection hfind with he
      subst he
      simp only [List.find?, hpa, hp]
      exact ⟨a, rfl, hR⟩
    | false =>
      simp only [List.find?, hp] at hfind
      simp only [List.find?, hpa, hp]
      exact ih hfind

theorem minRestSeconds_tighten_le (A : SolveInput) (t : List ShiftType) {hours : Int}
    (hrest : A.rules.timeOffHours ≤ hours) :
    minRestSeconds A ≤ minRestSeconds (tightenInput A t hours) := by
  unfold minRestSeconds
  rw [tightenInput_timeOffHours]
  omega

theorem pairConflict_mono {m m' : Int} (hm : m ≤ m') (a b : ShiftInstance)
    (h : pairConflict m a b = true) : pairConflict m' a b = true := by
  unfold pairConflict at h ⊢
  cases hov : shiftsOverlapB a b with
  | true => simp [hov]
  | false =>
    rw [hov] at h
    simp only [Bool.false_or, Bool.not_eq_true'] at h ⊢
    unfold restOkB at h ⊢
    by_cases hc : a.endDateTime ≤ b.startDateTime
    · rw [if_pos hc] at h ⊢
      simp only [decide_eq_false_iff_not] at h ⊢
      omega
    · rw [if_neg hc] at h ⊢
      simp only [decide_eq_false_iff_not] at h ⊢
      omega

/-- Claim C7 (amended): decreasing a shift-type's `maxShifts` (or adding
one) and increasing `timeOffHours`, with every other input field
identical, leave the pre-solve control flow unchanged and only strengthen
the model - every assignment satisfying the tightened model satisfies the
original - so these two tightenings can never turn an INFEASIBLE result
into FEASIBLE or OPTIMAL.  (Increasing `numShiftsRequired` or a
shift-type's `minShifts` can, because both enter the model through
equality constraints; see the counterexample.) -/
theorem tightening_monotone_amended (A : SolveInput) (types : List ShiftType)
    (hours : Int) (db : String → Option Int) (imp : Option String)
    (hty : List.Forall₂ typeTighter types A.shiftTypes)
    (hrest : A.rules.timeOffHours ≤ hours) :
    runPipeline db imp (tightenInput A types hours) = runPipeline db imp A ∧
    ∀ tzOff x y, ModelSat (tightenInput A types hours) tzOff x y →
      ModelSat A tzOff x y := by
  constructor
  · cases imp with
    | some e => rfl
    | none =>
      rw [runPipeline_none_eq, runPipeline_none_eq]
      simp only [tightenInput_students, tightenInput_shiftInstances,
        overnightRequired_tighten A types hours hty,
        validWindows_tighten A types hours hty, noBlockDiag, tightenInput_timezone]
  · intro tzOff x y hB
    refine ⟨?_, ?_, ?_, ?_, ?_, ?_, ?_, ?_, ?_, ?_, ?_⟩
    · intro s hs
      have h1 := hB.studentTotal s hs
      rw [target_tighten A types hours hty] at h1
      exact h1
    · intro hpos s hs
      have h1 := hB.overnightTotal
        (by rw [overnightRequired_tighten A types hours hty]; exact hpos) s hs
      rw [overnightIdxs_tighten A types hours hty,
        overnightRequired_tighten A types hours hty] at h1
      exact h1
    · intro hpos s hs
      have h1 := hB.blockChosen
        (by rw [overnightRequired_tighten A types hours hty]; exact hpos) s hs
      rw [validWindows_tighten A types hours hty] at h1
      exact h1
    · intro hpos s hs i hi
      have h1 := hB.blockDrives
        (by rw [overnightRequired_tighten A types hours hty]; exact hpos) s hs i
        (by rw [overnightOrdered_tighten A types hours hty]; exact hi)
      simp only [validWindows_tighten A types hours hty] at h1
      exact h1
    · intro hpos s hs
      have h1 := hB.blockSpanFree
        (by rw [overnightRequired_tighten A types hours hty]; exact hpos) s hs
      simp only [validWindows_tighten A types hours hty, windowSpan_tighten,
        shiftAt_tighten, numShifts_tighten] at h1
      exact h1
    · intro hdb i hi
      have h1 := hB.noDoubleBook
        (by rw [tightenInput_noDoubleBooking]; exact hdb) i hi
      exact h1
    · have h1 := hB.confBlocked
      simp only [conferenceBlockedIdxs_tighten] at h1
      exact h1
    · have h1 := hB.preConfBan
      simp only [overnightBeforeConfIdxs_tighten A types hours hty] at h1
      exact h1
    · intro s hs j hj i hij hc
      exact hB.restPairs s hs j hj i hij
        (pairConflict_mono (minRestSeconds_tighten_le A types hrest) _ _ hc)
    · intro stA hmemA hfindA hneA s hs m hm
      obtain ⟨stB, hfB, hrel⟩ := find?_typeTighter_rel hty stA.id hfindA
      obtain ⟨hidB, hnameB, hminB, hmaxB⟩ := hrel
      have hfindB : shiftTypeById (tightenInput A types hours) stB.id = some stB := by
        show types.find? (fun u => u.id == stB.id) = some stB
        rw [hidB]
        exact hfB
      have h1 := hB.typeMinOk stB (List.mem_of_find?_eq_some hfB) hfindB
        (by rw [typeIdxs_tighten, hidB]; exact hneA) s hs m
        (by rw [hminB]; exact hm)
      rw [typeIdxs_tighten, hidB] at h1
      exact h1
    · intro stA hmemA hfindA hneA s hs m hm
      obtain ⟨stB, hfB, hrel⟩ := find?_typeTighter_rel hty stA.id hfindA
      obtain ⟨hidB, hnameB, hminB, hmaxB⟩ := hrel
      have hfindB : shiftTypeById (tightenInput A types hours) stB.id = some stB := by
        show types.find? (fun u => u.id == stB.id) = some stB
        rw [hidB]
        exact hfB
      have hmA : stA.maxShifts = some m := Option.mem_def.mp hm
      rw [hmA] at hmaxB
      cases hmb : stB.maxShifts with
      | none =>
        rw [hmb] at hmaxB
        exact absurd hmaxB (by simp [maxTighter])
      | some mB =>
        rw [hmb] at hmaxB
        have hle : mB ≤ m := by simpa [maxTighter] using hmaxB
        have h1 := hB.typeMaxOk stB (List.mem_of_find?_eq_some hfB) hfindB
          (by rw [typeIdxs_tighten, hidB]; exact hneA) s hs mB
          (by rw [hmb]; rfl)
        rw [typeIdxs_tighten, hidB] at h1
        exact le_trans h1 hle

theorem tightening_monotone_amended_witness :
    runPipeline utcOnlyDb none
        (tightenInput exB [⟨"ot", "Overnight", some 1, none⟩, ⟨"tt", "T", none, some 1⟩] 1)
      = runPipeline utcOnlyDb none exB ∧
    ∀ tzOff x y,
      ModelSat (tightenInput exB
          [⟨"ot", "Overnight", some 1, none⟩, ⟨"tt", "T", none, some 1⟩] 1) tzOff x y →
      ModelSat exB tzOff x y :=
  tightening_monotone_amended exB
    [⟨"ot", "Overnight", some 1, none⟩, ⟨"tt", "T", none, some 1⟩] 1 utcOnlyDb none
    (.cons ⟨rfl, rfl, rfl, by decide⟩ (.cons ⟨rfl, rfl, rfl, by decide⟩ .nil))
    (by decide)

end MetroScheduler
